import Mathlib

/-!
Verification of the credential-and-session authentication service
(`0x03-user_authentication_service/auth.py`, `user.py`) and the Basic
authentication stub (`0x01-Basic_authentication/api/v1/auth/auth.py`).

Modelling conventions:
* Python `bytes` values (passwords, digests) are `List Nat` of byte values.
* Python `str` values (emails, tokens) are `String`; a `None`-able `str`
  is `Option String`.
* The two sources of randomness (`bcrypt.gensalt()` and `uuid4()`) are
  modelled as fresh supplies indexed by per-state counters: each call
  consumes the counter and increments it, so successive calls draw
  distinct values, which is the property the code relies on.
* Fallible Python code (raising `ValueError` / `NoResultFound`) is
  modelled with `Except` / `Option` results.
-/

/-- Byte strings (Python `bytes`), as lists of byte values. -/
abbrev Bytes := List Nat

namespace bcrypt

/-- Modelled from the spec: `bcrypt.hashpw` is an external library call;
the spec's contract is a bcrypt-class salted hash with a "per-call random
salt embedded in the output".  The model embeds the salt (in unary, as a
run of `'0'` bytes, value 48) between `'$'` markers (value 36) followed by
a password-determined payload, mirroring bcrypt's `$...salt...$payload`
layout.  Only the structural properties matter: the digest embeds a
recoverable salt, differs from the plaintext, and verification re-derives
and compares. -/
def hashpw (password : Bytes) (salt : Nat) : Bytes :=
  36 :: (List.replicate salt 48 ++ 36 :: password)

/-- Salt recovery from a digest produced by `hashpw`: strip the leading
marker, count the salt run, and require the second marker. -/
def saltOf (digest : Bytes) : Option Nat :=
  match digest with
  | [] => none
  | c :: rest =>
    if c = 36 then
      match rest.drop ((rest.takeWhile (fun x => x == 48)).length) with
      | [] => none
      | d :: _ =>
        if d = 36 then some ((rest.takeWhile (fun x => x == 48)).length)
        else none
    else none

/-- Modelled from the spec: `bcrypt.checkpw` "verification re-derives and
compares" — extract the embedded salt, re-hash the candidate password with
it, and compare with the stored digest. -/
def checkpw (password digest : Bytes) : Bool :=
  match saltOf digest with
  | some s => hashpw password s == digest
  | none => false

end bcrypt

/-- Modelled from the spec: `uuid4()` is an external library call; the
spec's contract is a fresh, globally-unique opaque string per call.  The
supply is indexed by a call counter; distinct indices give distinct
non-empty strings. -/
def _generate_uuid (n : Nat) : String :=
  String.mk (List.replicate (n + 1) 'u')

/-- Translation of `_hash_password` (auth.py): encode the password and
hash it with a freshly generated salt.  The salt is passed explicitly,
drawn from the per-state salt supply. -/
def _hash_password (password : Bytes) (salt : Nat) : Bytes :=
  bcrypt.hashpw password salt

/-- Translation of the `User` model (user.py): id, email,
hashed_password, nullable session_id, nullable reset_token. -/
structure User where
  id : Nat
  email : String
  hashed_password : Bytes
  session_id : Option String
  reset_token : Option String
deriving DecidableEq, Repr

/-- A partial update of a `User` row: `none` leaves the field unchanged,
`some v` sets it to `v` (mirroring keyword arguments to
`DB.update_user`). -/
structure Update where
  hashed_password : Option Bytes
  session_id : Option (Option String)
  reset_token : Option (Option String)
deriving DecidableEq, Repr

/-- Apply a partial update to a user row (id and email are never updated
by the auth service). -/
def applyUpdate (f : Update) (u : User) : User :=
  ⟨u.id, u.email, f.hashed_password.getD u.hashed_password,
   f.session_id.getD u.session_id, f.reset_token.getD u.reset_token⟩

/-- The user store's state: the table of rows plus the next fresh id. -/
structure DB where
  users : List User
  nextId : Nat
deriving DecidableEq, Repr

/-- A single field/value lookup predicate, the three forms
`find_user_by` is called with in auth.py. -/
inductive Lookup where
  | email (e : String)
  | sessionId (t : String)
  | resetToken (t : String)
deriving DecidableEq, Repr

/-- Whether a user row matches a lookup predicate. -/
def matchLookup (p : Lookup) (u : User) : Bool :=
  match p with
  | .email e => u.email == e
  | .sessionId t => u.session_id == some t
  | .resetToken t => u.reset_token == some t

/-- Modelled from the spec: `DB.find_user_by` lives in db.py, which is not
among the sources; §4.1 specifies "Returns exactly one matching user or
fails with NotFound. Must fail (not return empty/null) when zero or when
the caller's expectation of uniqueness is violated."  Failure is `none`,
which the auth service catches as `NoResultFound`. -/
def find_user_by (db : DB) (p : Lookup) : Option User :=
  match db.users.filter (matchLookup p) with
  | [u] => some u
  | _ => none

/-- Modelled from the spec: `DB.add_user` (db.py, not among the sources)
"creates and returns a new user with a freshly assigned id, null
session_id, null reset_token". -/
def add_user (db : DB) (email : String) (hashed_password : Bytes) : User × DB :=
  let u : User := ⟨db.nextId, email, hashed_password, none, none⟩
  (u, ⟨db.users ++ [u], db.nextId + 1⟩)

/-- The row transformer `update_user` applies to each stored row: rows
whose id matches are updated, the rest are unchanged. -/
def updOne (user_id : Nat) (f : Update) (v : User) : User :=
  if v.id == user_id then applyUpdate f v else v

/-- Modelled from the spec: `DB.update_user` (db.py, not among the
sources) "applies a partial update ...; fails with NotFound /
InvalidReference if id does not exist" (a `ValueError` in the Python
sources, which `destroy_session` catches).  Failure is `none`. -/
def update_user (db : DB) (user_id : Nat) (f : Update) : Option DB :=
  if db.users.any (fun v => v.id == user_id) then
    some ⟨db.users.map (updOne user_id f), db.nextId⟩
  else
    none

/-- The auth service's state: the backing store plus the two randomness
supplies (uuid counter for `_generate_uuid`, salt counter for
`bcrypt.gensalt`). -/
structure AuthState where
  db : DB
  uuidCtr : Nat
  saltCtr : Nat
deriving DecidableEq, Repr

/-- The error conditions the auth service surfaces (spec §7 taxonomy;
each corresponds to a distinct `raise` site or uncaught store failure in
auth.py). -/
inductive AuthErr where
  | alreadyExists
  | notFound
  | invalidToken
  | storeFailure
deriving DecidableEq, Repr

namespace Auth

/-- Translation of `Auth.register_user` (auth.py): look up the email; on
`NoResultFound` hash the password and add the user; otherwise raise
`ValueError` ("User ... already exists", the spec's `AlreadyExists`). -/
def register_user (s : AuthState) (email : String) (password : Bytes) :
    Except AuthErr (User × AuthState) :=
  match find_user_by s.db (.email email) with
  | none =>
    let hashed := _hash_password password s.saltCtr
    let r := add_user s.db email hashed
    Except.ok (r.1, ⟨r.2, s.uuidCtr, s.saltCtr + 1⟩)
  | some _ => Except.error AuthErr.alreadyExists

/-- Translation of `Auth.valid_login` (auth.py): look up the email; on
`NoResultFound` return `false`; otherwise check the password against the
stored `hashed_password` with `bcrypt.checkpw`. -/
def valid_login (s : AuthState) (email : String) (password : Bytes) : Bool :=
  match find_user_by s.db (.email email) with
  | none => false
  | some user => bcrypt.checkpw password user.hashed_password

/-- Translation of `Auth.create_session` (auth.py): look up the email; on
`NoResultFound` return `None`; otherwise generate a uuid, store it as the
user's `session_id` and return it. -/
def create_session (s : AuthState) (email : String) :
    Except AuthErr (Option String × AuthState) :=
  match find_user_by s.db (.email email) with
  | none => Except.ok (none, s)
  | some user =>
    let sid := _generate_uuid s.uuidCtr
    match update_user s.db user.id ⟨none, some (some sid), none⟩ with
    | some db2 => Except.ok (some sid, ⟨db2, s.uuidCtr + 1, s.saltCtr⟩)
    | none => Except.error AuthErr.storeFailure

/-- Translation of `Auth.get_user_from_session_id` (auth.py): if
`session_id is None`, return `None` at once; otherwise look up by
`session_id`, mapping `NoResultFound` to `None`.  The second component
records the store lookups the call performs, so that "no lookup
performed" is an observable statement. -/
def get_user_from_session_id (s : AuthState) (session_id : Option String) :
    Option User × List Lookup :=
  match session_id with
  | none => (none, [])
  | some sid => (find_user_by s.db (.sessionId sid), [Lookup.sessionId sid])

/-- Translation of `Auth.destroy_session` (auth.py): set the user's
`session_id` to `None`; a `ValueError` from the store (unknown id) is
caught and swallowed, so the call always returns `None`. -/
def destroy_session (s : AuthState) (user_id : Nat) :
    Except AuthErr (Unit × AuthState) :=
  match update_user s.db user_id ⟨none, some none, none⟩ with
  | some db2 => Except.ok ((), ⟨db2, s.uuidCtr, s.saltCtr⟩)
  | none => Except.ok ((), s)

/-- Translation of `Auth.get_reset_password_token` (auth.py): look up the
email; on `NoResultFound` raise `ValueError` (the spec's `NotFound`);
otherwise generate a uuid, store it as the user's `reset_token` and
return it. -/
def get_reset_password_token (s : AuthState) (email : String) :
    Except AuthErr (String × AuthState) :=
  match find_user_by s.db (.email email) with
  | none => Except.error AuthErr.notFound
  | some user =>
    let tok := _generate_uuid s.uuidCtr
    match update_user s.db user.id ⟨none, none, some (some tok)⟩ with
    | some db2 => Except.ok (tok, ⟨db2, s.uuidCtr + 1, s.saltCtr⟩)
    | none => Except.error AuthErr.storeFailure

/-- Translation of `Auth.update_password` (auth.py): look up by
`reset_token`; on `NoResultFound` raise `ValueError` (the spec's
`InvalidToken`); otherwise hash the new password, store it as
`hashed_password` and clear `reset_token` to `None`. -/
def update_password (s : AuthState) (reset_token : String) (password : Bytes) :
    Except AuthErr (Unit × AuthState) :=
  match find_user_by s.db (.resetToken reset_token) with
  | none => Except.error AuthErr.invalidToken
  | some user =>
    let hashed := _hash_password password s.saltCtr
    match update_user s.db user.id ⟨some hashed, none, some none⟩ with
    | some db2 => Except.ok ((), ⟨db2, s.uuidCtr, s.saltCtr + 1⟩)
    | none => Except.error AuthErr.storeFailure

end Auth

namespace BasicAuth

/-- Translation of `Auth.require_auth` (0x01-Basic_authentication):
always returns `False`. -/
def require_auth (path : String) (excluded_paths : List String) : Bool :=
  false

/-- Translation of `Auth.authorization_header`
(0x01-Basic_authentication): always returns `None`; the request type is a
parameter since the stub never inspects it. -/
def authorization_header {α : Type} (request : Option α) : Option String :=
  none

/-- Translation of `Auth.current_user` (0x01-Basic_authentication):
always returns `None`. -/
def current_user {α β : Type} (request : Option α) : Option β :=
  none

end BasicAuth

/-! ### Properties of the bcrypt model -/

lemma takeWhile_replicate48 (s : Nat) (p : Bytes) :
    (List.replicate s (48:Nat) ++ 36 :: p).takeWhile (fun x => x == 48) =
      List.replicate s (48:Nat) := by
  induction s with
  | zero => simp [List.takeWhile]
  | succ n ih => simp [List.replicate, List.takeWhile, ih]

lemma drop_replicate48 (s : Nat) (p : Bytes) :
    (List.replicate s (48:Nat) ++ 36 :: p).drop s = 36 :: p := by
  have h := List.drop_left (List.replicate s (48:Nat)) (36 :: p)
  rw [List.length_replicate] at h
  exact h

lemma saltOf_hashpw (p : Bytes) (s : Nat) :
    bcrypt.saltOf (bcrypt.hashpw p s) = some s := by
  simp [bcrypt.saltOf, bcrypt.hashpw, takeWhile_replicate48, drop_replicate48]

lemma checkpw_hashpw (p : Bytes) (s : Nat) :
    bcrypt.checkpw p (bcrypt.hashpw p s) = true := by
  simp [bcrypt.checkpw, saltOf_hashpw]

lemma length_hashpw (p : Bytes) (s : Nat) :
    (bcrypt.hashpw p s).length = p.length + s + 2 := by
  simp [bcrypt.hashpw]
  omega

lemma hashpw_ne_password (p : Bytes) (s : Nat) : bcrypt.hashpw p s ≠ p := by
  intro h
  have h2 := congrArg List.length h
  rw [length_hashpw] at h2
  omega

lemma hashpw_salt_ne (p : Bytes) {s1 s2 : Nat} (h : s1 ≠ s2) :
    bcrypt.hashpw p s1 ≠ bcrypt.hashpw p s2 := by
  intro he
  have h2 := congrArg List.length he
  rw [length_hashpw, length_hashpw] at h2
  omega

/-! ### Helper lemmas about the store operations -/

lemma updOne_id (user_id : Nat) (f : Update) (v : User) :
    (updOne user_id f v).id = v.id := by
  unfold updOne applyUpdate
  split <;> rfl

lemma updOne_email (user_id : Nat) (f : Update) (v : User) :
    (updOne user_id f v).email = v.email := by
  unfold updOne applyUpdate
  split <;> rfl

lemma updOne_of_ne {user_id : Nat} {v : User} (f : Update) (h : v.id ≠ user_id) :
    updOne user_id f v = v := by
  simp [updOne, h]

lemma updOne_of_eq {user_id : Nat} {v : User} (f : Update) (h : v.id = user_id) :
    updOne user_id f v = applyUpdate f v := by
  simp [updOne, h]

lemma mem_of_filter_eq_single {q : User → Bool} {l : List User} {u : User}
    (h : l.filter q = [u]) : u ∈ l ∧ q u = true := by
  have hu : u ∈ l.filter q := by
    rw [h]
    exact List.mem_singleton_self u
  exact ⟨(List.mem_filter.mp hu).1, (List.mem_filter.mp hu).2⟩

lemma eq_of_filter_eq_single {q : User → Bool} {l : List User} {u v : User}
    (h : l.filter q = [u]) (hv : v ∈ l) (hq : q v = true) : v = u := by
  have : v ∈ l.filter q := List.mem_filter.mpr ⟨hv, hq⟩
  rw [h] at this
  exact List.mem_singleton.mp this

lemma filter_map_updOne_nil {q : User → Bool} {user_id : Nat} {f : Update}
    {l : List User} (h : ∀ v ∈ l, q (updOne user_id f v) = false) :
    (l.map (updOne user_id f)).filter q = [] := by
  rw [List.filter_eq_nil_iff]
  intro a ha
  obtain ⟨v, hv, rfl⟩ := List.mem_map.mp ha
  simp [h v hv]

lemma map_id_map_updOne (user_id : Nat) (f : Update) (l : List User) :
    (l.map (updOne user_id f)).map User.id = l.map User.id := by
  induction l with
  | nil => rfl
  | cons a t ih => simp [updOne_id, ih]

lemma mem_map_updOne_self {l : List User} {u : User} {user_id : Nat}
    (f : Update) (hu : u ∈ l) (hid : u.id = user_id) :
    applyUpdate f u ∈ l.map (updOne user_id f) := by
  have h := List.mem_map_of_mem (updOne user_id f) hu
  rwa [updOne_of_eq f hid] at h

lemma any_id_of_mem {l : List User} {u : User} {user_id : Nat}
    (hu : u ∈ l) (hid : u.id = user_id) :
    l.any (fun v => v.id == user_id) = true := by
  exact List.any_eq_true.mpr ⟨u, hu, by simp [hid]⟩

lemma filter_map_updOne_single {q : User → Bool} {user_id : Nat} {f : Update}
    {l : List User} {u : User}
    (hnd : (l.map User.id).Nodup) (hu : u ∈ l) (hid : u.id = user_id)
    (hq : q (applyUpdate f u) = true)
    (hothers : ∀ v ∈ l, v.id ≠ user_id → q v = false) :
    (l.map (updOne user_id f)).filter q = [applyUpdate f u] := by
  induction l with
  | nil => cases hu
  | cons a t ih =>
    rw [List.map_cons] at hnd
    have hnd1 : a.id ∉ t.map User.id := (List.nodup_cons.mp hnd).1
    have hnd2 : (t.map User.id).Nodup := (List.nodup_cons.mp hnd).2
    rcases List.mem_cons.mp hu with rfl | hut
    · have htail : ∀ v ∈ t, q (updOne user_id f v) = false := by
        intro v hv
        have hvne : v.id ≠ user_id := by
          intro hveq
          exact hnd1 (hid ▸ hveq ▸ List.mem_map_of_mem User.id hv)
        rw [updOne_of_ne f hvne]
        exact hothers v (List.mem_cons_of_mem _ hv) hvne
      rw [List.map_cons, updOne_of_eq f hid, List.filter_cons_of_pos hq,
        filter_map_updOne_nil htail]
    · have hane : a.id ≠ user_id := by
        intro haeq
        exact hnd1 (haeq ▸ hid ▸ List.mem_map_of_mem User.id hut)
      have hqa : q (updOne user_id f a) = false := by
        rw [updOne_of_ne f hane]
        exact hothers a (List.mem_cons_self a t) hane
      rw [List.map_cons, List.filter_cons_of_neg (by simp [hqa])]
      exact ih hnd2 hut fun v hv => hothers v (List.mem_cons_of_mem a hv)

lemma find_user_by_of_filter_single {db : DB} {p : Lookup} {u : User}
    (h : db.users.filter (matchLookup p) = [u]) : find_user_by db p = some u := by
  simp [find_user_by, h]

lemma find_user_by_of_filter_nil {db : DB} {p : Lookup}
    (h : db.users.filter (matchLookup p) = []) : find_user_by db p = none := by
  simp [find_user_by, h]

lemma mem_map_updOne_cases {l : List User} {user_id : Nat} {f : Update}
    {v : User} (hv : v ∈ l.map (updOne user_id f)) :
    (∃ w ∈ l, w.id = user_id ∧ v = applyUpdate f w) ∨
      (v ∈ l ∧ v.id ≠ user_id) := by
  obtain ⟨w, hw, rfl⟩ := List.mem_map.mp hv
  by_cases hwid : w.id = user_id
  · exact Or.inl ⟨w, hw, hwid, updOne_of_eq f hwid⟩
  · rw [updOne_of_ne f hwid]
    exact Or.inr ⟨hw, hwid⟩

lemma email_false_lift {e : String} {user_id : Nat} (f : Update)
    {l : List User}
    (h : ∀ v ∈ l, v.id ≠ user_id → matchLookup (.email e) v = false) :
    ∀ v ∈ l.map (updOne user_id f), v.id ≠ user_id →
      matchLookup (.email e) v = false := by
  intro v hv hvid
  obtain ⟨w, hw, rfl⟩ := List.mem_map.mp hv
  rw [updOne_id] at hvid
  have hw2 := h w hw hvid
  simp only [matchLookup] at hw2 ⊢
  rw [updOne_email]
  exact hw2

lemma email_false_of_filter_single {e : String} {l : List User} {u : User}
    (H1 : l.filter (matchLookup (.email e)) = [u]) :
    ∀ v ∈ l, v.id ≠ u.id → matchLookup (.email e) v = false := by
  intro v hv hvne
  cases hq : matchLookup (.email e) v with
  | false => rfl
  | true =>
    exact absurd (congrArg User.id (eq_of_filter_eq_single H1 hv hq)) hvne

/-! ### Example rows and states used by the concrete witnesses -/

/-- A registered user with no active session and no pending reset. -/
def exUser : User := ⟨1, "a@x.com", bcrypt.hashpw [112, 119] 0, none, none⟩

/-- A store holding just `exUser`, with the randomness supplies advanced
to arbitrary positions. -/
def exState : AuthState := ⟨⟨[exUser], 2⟩, 5, 3⟩

/-! ### The claims -/

/-- Claim C6: for every password `p`, the digest differs from the
password, verifies against it, and two separate `_hash_password` calls
(drawing the successive salts `c` and `c + 1` from the salt supply) yield
two different digests that both verify against `p`. -/
theorem hash_password_properties (p : Bytes) (c : Nat) :
    _hash_password p c ≠ p ∧
    bcrypt.checkpw p (_hash_password p c) = true ∧
    _hash_password p (c + 1) ≠ _hash_password p c ∧
    bcrypt.checkpw p (_hash_password p (c + 1)) = true :=
  ⟨hashpw_ne_password p c, checkpw_hashpw p c,
   hashpw_salt_ne p (by omega), checkpw_hashpw p (c + 1)⟩

/-- Claim C10: the base Basic-authentication `Auth` class is a constant
no-auth stub — `require_auth` is `False` for every path and exclusion
list, and `authorization_header` / `current_user` are `None` for every
request, including the absent one. -/
theorem basic_auth_constant_stub :
    (∀ (path : String) (excluded_paths : List String),
      BasicAuth.require_auth path excluded_paths = false) ∧
    (∀ (α : Type) (r : Option α), BasicAuth.authorization_header r = none) ∧
    (∀ (α β : Type) (r : Option α),
      (BasicAuth.current_user r : Option β) = none) :=
  ⟨fun _ _ => rfl, fun _ _ => rfl, fun _ _ _ => rfl⟩

/-- Claim C5: `destroy_session` always returns the no-value result (a
store `ValueError` for an unknown id is swallowed), and every row whose
id matches ends up with a null `session_id`. -/
theorem destroy_session_total (s : AuthState) (uid : Nat) :
    ∃ s2, Auth.destroy_session s uid = Except.ok ((), s2) ∧
      ∀ v ∈ s2.db.users, v.id = uid → v.session_id = none := by
  unfold Auth.destroy_session update_user
  by_cases h : s.db.users.any (fun v => v.id == uid) = true
  · rw [if_pos h]
    refine ⟨_, rfl, ?_⟩
    intro v hv hvid
    rcases mem_map_updOne_cases hv with ⟨w, _, _, rfl⟩ | ⟨_, hne⟩
    · rfl
    · exact absurd hvid hne
  · rw [if_neg h]
    refine ⟨s, rfl, ?_⟩
    intro v hv hvid
    exact absurd (any_id_of_mem hv hvid) h

/-- Witness for C5 at a concrete state: the single user's id. -/
theorem destroy_session_total_witness :
    ∃ s2, Auth.destroy_session exState 1 = Except.ok ((), s2) ∧
      ∀ v ∈ s2.db.users, v.id = 1 → v.session_id = none :=
  destroy_session_total exState 1

/-- Claim C7: `valid_login` is a total boolean function — an email with
no matching user yields `false` (no error is raised), and for an existing
user it returns exactly the result of verifying the password against the
stored `hashed_password`. -/
theorem valid_login_missing_or_match (s : AuthState) (e : String) (p : Bytes) :
    (s.db.users.filter (matchLookup (.email e)) = [] →
      Auth.valid_login s e p = false) ∧
    (∀ u, s.db.users.filter (matchLookup (.email e)) = [u] →
      Auth.valid_login s e p = bcrypt.checkpw p u.hashed_password) := by
  constructor
  · intro h
    simp [Auth.valid_login, find_user_by_of_filter_nil h]
  · intro u h
    simp [Auth.valid_login, find_user_by_of_filter_single h]

/-- Witness for C7 at a concrete state: a missing email collapses to
`false`, and the stored user's password verifies. -/
theorem valid_login_missing_or_match_witness :
    Auth.valid_login exState "missing@x.com" [112] = false ∧
    Auth.valid_login exState "a@x.com" [112, 119] = true := by
  constructor
  · exact (valid_login_missing_or_match exState "missing@x.com" [112]).1
      (by decide)
  · rw [(valid_login_missing_or_match exState "a@x.com" [112, 119]).2 exUser
      (by decide)]
    exact checkpw_hashpw [112, 119] 0

/-- Claim C4 counterexample: the claim says an empty-or-absent token is
answered "no user" with no store lookup, but the code short-circuits only
on `None` (`if session_id is None`); for the empty string it does issue a
`session_id` lookup, recorded in the call trace. -/
theorem empty_token_triggers_lookup :
    (Auth.get_user_from_session_id exState (some "")).2 ≠ [] := by decide

/-- Claim C4 (amended): for the absent token (`None`) the call returns
the no-user sentinel immediately with no store lookup; for the empty
string it performs one `session_id` lookup, which yields the no-user
sentinel provided no stored row has the empty string as its
`session_id`. -/
theorem get_user_absent_or_empty_token (s : AuthState) :
    Auth.get_user_from_session_id s none = (none, []) ∧
    ((∀ v ∈ s.db.users, v.session_id ≠ some "") →
      Auth.get_user_from_session_id s (some "") =
        (none, [Lookup.sessionId ""])) := by
  constructor
  · rfl
  · intro h
    have hnil : s.db.users.filter (matchLookup (.sessionId "")) = [] := by
      rw [List.filter_eq_nil_iff]
      intro a ha
      simp [matchLookup, h a ha]
    simp [Auth.get_user_from_session_id, find_user_by_of_filter_nil hnil]

/-- Witness for C4 (amended) at a concrete state. -/
theorem get_user_absent_or_empty_token_witness :
    Auth.get_user_from_session_id exState (some "") =
      (none, [Lookup.sessionId ""]) :=
  (get_user_absent_or_empty_token exState).2 (by decide)

/-- Claim C8: `create_session` on an unknown email returns the `None`
sentinel and leaves the store untouched; on an existing user it draws a
fresh token from the uuid supply, stores it as that user's `session_id`,
and returns exactly that token. -/
theorem create_session_spec (s : AuthState) (e : String) :
    (s.db.users.filter (matchLookup (.email e)) = [] →
      Auth.create_session s e = Except.ok (none, s)) ∧
    (∀ u, s.db.users.filter (matchLookup (.email e)) = [u] →
      ∃ s2, Auth.create_session s e =
          Except.ok (some (_generate_uuid s.uuidCtr), s2) ∧
        s2.uuidCtr = s.uuidCtr + 1 ∧
        ∀ v ∈ s2.db.users, v.id = u.id →
          v.session_id = some (_generate_uuid s.uuidCtr)) := by
  constructor
  · intro h
    simp [Auth.create_session, find_user_by_of_filter_nil h]
  · intro u h
    have hu := (mem_of_filter_eq_single h).1
    have hany : s.db.users.any (fun v => v.id == u.id) = true :=
      any_id_of_mem hu rfl
    refine ⟨⟨⟨s.db.users.map (updOne u.id
        ⟨none, some (some (_generate_uuid s.uuidCtr)), none⟩), s.db.nextId⟩,
      s.uuidCtr + 1, s.saltCtr⟩, ?_, rfl, ?_⟩
    · simp [Auth.create_session, find_user_by_of_filter_single h,
        update_user, hany]
    · intro v hv hvid
      rcases mem_map_updOne_cases hv with ⟨w, _, _, rfl⟩ | ⟨_, hne⟩
      · rfl
      · exact absurd hvid hne

/-- Witness for C8 at a concrete state: a missing email and the stored
user. -/
theorem create_session_spec_witness :
    Auth.create_session exState "missing@x.com" = Except.ok (none, exState) ∧
    ∃ s2, Auth.create_session exState "a@x.com" =
        Except.ok (some (_generate_uuid 5), s2) ∧
      s2.uuidCtr = 5 + 1 ∧
      ∀ v ∈ s2.db.users, v.id = 1 → v.session_id = some (_generate_uuid 5) :=
  ⟨(create_session_spec exState "missing@x.com").1 (by decide),
   (create_session_spec exState "a@x.com").2 exUser (by decide)⟩

/-- Claim C9: `request_password_reset` surfaces an unknown email as the
`NotFound` failure (not a benign default); on an existing user it draws a
fresh token from the uuid supply, stores it as that user's `reset_token`,
and returns it. -/
theorem reset_request_spec (s : AuthState) (e : String) :
    (s.db.users.filter (matchLookup (.email e)) = [] →
      Auth.get_reset_password_token s e = Except.error AuthErr.notFound) ∧
    (∀ u, s.db.users.filter (matchLookup (.email e)) = [u] →
      ∃ s2, Auth.get_reset_password_token s e =
          Except.ok (_generate_uuid s.uuidCtr, s2) ∧
        s2.uuidCtr = s.uuidCtr + 1 ∧
        ∀ v ∈ s2.db.users, v.id = u.id →
          v.reset_token = some (_generate_uuid s.uuidCtr)) := by
  constructor
  · intro h
    simp [Auth.get_reset_password_token, find_user_by_of_filter_nil h]
  · intro u h
    have hu := (mem_of_filter_eq_single h).1
    have hany : s.db.users.any (fun v => v.id == u.id) = true :=
      any_id_of_mem hu rfl
    refine ⟨⟨⟨s.db.users.map (updOne u.id
        ⟨none, none, some (some (_generate_uuid s.uuidCtr))⟩), s.db.nextId⟩,
      s.uuidCtr + 1, s.saltCtr⟩, ?_, rfl, ?_⟩
    · simp [Auth.get_reset_password_token, find_user_by_of_filter_single h,
        update_user, hany]
    · intro v hv hvid
      rcases mem_map_updOne_cases hv with ⟨w, _, _, rfl⟩ | ⟨_, hne⟩
      · rfl
      · exact absurd hvid hne

/-- Witness for C9 at a concrete state: a missing email fails with
`NotFound`, and the stored user receives the fresh token. -/
theorem reset_request_spec_witness :
    Auth.get_reset_password_token exState "missing@x.com" =
      Except.error AuthErr.notFound ∧
    ∃ s2, Auth.get_reset_password_token exState "a@x.com" =
        Except.ok (_generate_uuid 5, s2) ∧
      s2.uuidCtr = 5 + 1 ∧
      ∀ v ∈ s2.db.users, v.id = 1 → v.reset_token = some (_generate_uuid 5) :=
  ⟨(reset_request_spec exState "missing@x.com").1 (by decide),
   (reset_request_spec exState "a@x.com").2 exUser (by decide)⟩

/-- Claim C1: when at most one stored row carries the email (the design's
uniqueness intent), a successful `register_user` followed by a second
`register_user` for the same email fails with `AlreadyExists`, and —
since the failing call raises before mutating anything — the first user's
record, hashed password included, still stands in the state the caller
kept. -/
theorem register_twice_rejected (s : AuthState) (e : String) (p1 p2 : Bytes)
    (u1 : User) (s1 : AuthState)
    (huniq : (s.db.users.filter (matchLookup (.email e))).length ≤ 1)
    (h1 : Auth.register_user s e p1 = Except.ok (u1, s1)) :
    Auth.register_user s1 e p2 = Except.error AuthErr.alreadyExists ∧
    u1 ∈ s1.db.users ∧
    u1.hashed_password = _hash_password p1 s.saltCtr := by
  rcases hf : s.db.users.filter (matchLookup (.email e)) with _ | ⟨a, _ | ⟨b, t⟩⟩
  · have hfind : find_user_by s.db (.email e) = none :=
      find_user_by_of_filter_nil hf
    simp only [Auth.register_user, hfind, add_user] at h1
    rw [Except.ok.injEq, Prod.mk.injEq] at h1
    obtain ⟨hu1, hs1⟩ := h1
    subst hu1
    subst hs1
    refine ⟨?_, by simp, rfl⟩
    have hfind2 : find_user_by
        (⟨s.db.users ++
          [⟨s.db.nextId, e, _hash_password p1 s.saltCtr, none, none⟩],
          s.db.nextId + 1⟩ : DB) (.email e) =
        some ⟨s.db.nextId, e, _hash_password p1 s.saltCtr, none, none⟩ := by
      apply find_user_by_of_filter_single
      show (s.db.users ++ _).filter _ = _
      rw [List.filter_append, hf]
      simp [matchLookup]
    simp [Auth.register_user, hfind2]
  · have hfind : find_user_by s.db (.email e) = some a :=
      find_user_by_of_filter_single hf
    simp [Auth.register_user, hfind] at h1
  · rw [hf] at huniq
    simp at huniq

/-- Witness for C1: register into an empty store, then register the same
email again. -/
theorem register_twice_rejected_witness :
    Auth.register_user
        ⟨⟨[⟨1, "b@x.com", _hash_password [7] 0, none, none⟩], 2⟩, 0, 1⟩
        "b@x.com" [8] = Except.error AuthErr.alreadyExists ∧
    (⟨1, "b@x.com", _hash_password [7] 0, none, none⟩ : User) ∈
      (⟨⟨[⟨1, "b@x.com", _hash_password [7] 0, none, none⟩], 2⟩, 0, 1⟩ :
        AuthState).db.users ∧
    (⟨1, "b@x.com", _hash_password [7] 0, none, none⟩ : User).hashed_password =
      _hash_password [7] 0 :=
  register_twice_rejected ⟨⟨[], 1⟩, 0, 0⟩ "b@x.com" [7] [8]
    ⟨1, "b@x.com", _hash_password [7] 0, none, none⟩
    ⟨⟨[⟨1, "b@x.com", _hash_password [7] 0, none, none⟩], 2⟩, 0, 1⟩
    (by decide) (by rfl)

lemma valid_login_eq_of_find {s : AuthState} {e : String} {pw : Bytes}
    {user : User} (hfind : find_user_by s.db (.email e) = some user) :
    Auth.valid_login s e pw = bcrypt.checkpw pw user.hashed_password := by
  unfold Auth.valid_login
  rw [hfind]

lemma get_reset_token_ok_eq {s : AuthState} {e : String} {user : User}
    (hfind : find_user_by s.db (.email e) = some user)
    (hany : s.db.users.any (fun v => v.id == user.id) = true) :
    Auth.get_reset_password_token s e =
      Except.ok (_generate_uuid s.uuidCtr,
        ⟨⟨s.db.users.map (updOne user.id
          ⟨none, none, some (some (_generate_uuid s.uuidCtr))⟩), s.db.nextId⟩,
          s.uuidCtr + 1, s.saltCtr⟩) := by
  unfold Auth.get_reset_password_token
  rw [hfind]
  show (match update_user s.db user.id
      ⟨none, none, some (some (_generate_uuid s.uuidCtr))⟩ with
    | some db2 =>
        Except.ok (_generate_uuid s.uuidCtr,
          (⟨db2, s.uuidCtr + 1, s.saltCtr⟩ : AuthState))
    | none => Except.error AuthErr.storeFailure) = _
  unfold update_user
  rw [if_pos hany]

lemma update_password_ok_eq {s : AuthState} {tok : String} {pw : Bytes}
    {user : User}
    (hfind : find_user_by s.db (.resetToken tok) = some user)
    (hany : s.db.users.any (fun v => v.id == user.id) = true) :
    Auth.update_password s tok pw = Except.ok ((),
      ⟨⟨s.db.users.map (updOne user.id
        ⟨some (_hash_password pw s.saltCtr), none, some none⟩), s.db.nextId⟩,
        s.uuidCtr, s.saltCtr + 1⟩) := by
  unfold Auth.update_password
  rw [hfind]
  show (match update_user s.db user.id
      ⟨some (_hash_password pw s.saltCtr), none, some none⟩ with
    | some db2 => Except.ok ((), (⟨db2, s.uuidCtr, s.saltCtr + 1⟩ : AuthState))
    | none => Except.error AuthErr.storeFailure) = _
  unfold update_user
  rw [if_pos hany]

lemma update_password_err_eq {s : AuthState} {tok : String} {pw : Bytes}
    (hfind : find_user_by s.db (.resetToken tok) = none) :
    Auth.update_password s tok pw = Except.error AuthErr.invalidToken := by
  unfold Auth.update_password
  rw [hfind]

lemma create_session_ok_eq {s : AuthState} {e : String} {user : User}
    (hfind : find_user_by s.db (.email e) = some user)
    (hany : s.db.users.any (fun v => v.id == user.id) = true) :
    Auth.create_session s e =
      Except.ok (some (_generate_uuid s.uuidCtr),
        ⟨⟨s.db.users.map (updOne user.id
          ⟨none, some (some (_generate_uuid s.uuidCtr)), none⟩), s.db.nextId⟩,
          s.uuidCtr + 1, s.saltCtr⟩) := by
  unfold Auth.create_session
  rw [hfind]
  show (match update_user s.db user.id
      ⟨none, some (some (_generate_uuid s.uuidCtr)), none⟩ with
    | some db2 =>
        Except.ok (some (_generate_uuid s.uuidCtr),
          (⟨db2, s.uuidCtr + 1, s.saltCtr⟩ : AuthState))
    | none => Except.error AuthErr.storeFailure) = _
  unfold update_user
  rw [if_pos hany]

lemma destroy_session_ok_eq {s : AuthState} {uid : Nat}
    (hany : s.db.users.any (fun v => v.id == uid) = true) :
    Auth.destroy_session s uid = Except.ok ((),
      ⟨⟨s.db.users.map (updOne uid ⟨none, some none, none⟩), s.db.nextId⟩,
        s.uuidCtr, s.saltCtr⟩) := by
  unfold Auth.destroy_session update_user
  rw [if_pos hany]

lemma get_user_from_session_eq (s : AuthState) (t : String) :
    Auth.get_user_from_session_id s (some t) =
      (find_user_by s.db (.sessionId t), [Lookup.sessionId t]) := rfl

/-- Claim C2: for a registered user (unique row for the email, distinct
ids, and the freshly drawn token not already stored — the spec's global
token-uniqueness invariant), `get_reset_password_token` returns a token
`T`; `update_password T newpw` succeeds, replacing `hashed_password` and
clearing `reset_token` to null; a subsequent `valid_login` with the new
password returns `true`; and a second `update_password` with `T` fails
with `InvalidToken` — the reset token is single-use. -/
theorem password_reset_flow (s : AuthState) (e : String) (u : User)
    (newpw x : Bytes)
    (H1 : s.db.users.filter (matchLookup (.email e)) = [u])
    (H2 : (s.db.users.map User.id).Nodup)
    (H3 : ∀ v ∈ s.db.users, v.reset_token ≠ some (_generate_uuid s.uuidCtr)) :
    ∃ s1 s2,
      Auth.get_reset_password_token s e =
        Except.ok (_generate_uuid s.uuidCtr, s1) ∧
      Auth.update_password s1 (_generate_uuid s.uuidCtr) newpw =
        Except.ok ((), s2) ∧
      (⟨u.id, u.email, _hash_password newpw s.saltCtr, u.session_id, none⟩ :
        User) ∈ s2.db.users ∧
      Auth.valid_login s2 e newpw = true ∧
      Auth.update_password s2 (_generate_uuid s.uuidCtr) x =
        Except.error AuthErr.invalidToken := by
  obtain ⟨hu, hqu⟩ := mem_of_filter_eq_single H1
  have hfind1 : find_user_by s.db (.email e) = some u :=
    find_user_by_of_filter_single H1
  have hany1 : s.db.users.any (fun v => v.id == u.id) = true :=
    any_id_of_mem hu rfl
  have hret1 : (s.db.users.map (updOne u.id
      ⟨none, none, some (some (_generate_uuid s.uuidCtr))⟩)).filter
        (matchLookup (.resetToken (_generate_uuid s.uuidCtr))) =
      [applyUpdate ⟨none, none, some (some (_generate_uuid s.uuidCtr))⟩ u] := by
    refine filter_map_updOne_single H2 hu rfl ?_ ?_
    · simp [matchLookup, applyUpdate]
    · intro v hv _
      simp only [matchLookup]
      exact beq_false_of_ne (H3 v hv)
  have hu1mem : applyUpdate ⟨none, none,
      some (some (_generate_uuid s.uuidCtr))⟩ u ∈
      s.db.users.map (updOne u.id
        ⟨none, none, some (some (_generate_uuid s.uuidCtr))⟩) :=
    mem_map_updOne_self _ hu rfl
  have hany2 : (s.db.users.map (updOne u.id
      ⟨none, none, some (some (_generate_uuid s.uuidCtr))⟩)).any
        (fun v => v.id == u.id) = true :=
    any_id_of_mem hu1mem rfl
  have hnd1 : ((s.db.users.map (updOne u.id
      ⟨none, none, some (some (_generate_uuid s.uuidCtr))⟩)).map
        User.id).Nodup := by
    rw [map_id_map_updOne]
    exact H2
  have hu2mem : applyUpdate
      ⟨some (_hash_password newpw s.saltCtr), none, some none⟩
      (applyUpdate ⟨none, none, some (some (_generate_uuid s.uuidCtr))⟩ u) ∈
      (s.db.users.map (updOne u.id
        ⟨none, none, some (some (_generate_uuid s.uuidCtr))⟩)).map
        (updOne u.id
          ⟨some (_hash_password newpw s.saltCtr), none, some none⟩) :=
    mem_map_updOne_self _ hu1mem rfl
  have hfilterE2 : ((s.db.users.map (updOne u.id
      ⟨none, none, some (some (_generate_uuid s.uuidCtr))⟩)).map
        (updOne u.id
          ⟨some (_hash_password newpw s.saltCtr), none, some none⟩)).filter
        (matchLookup (.email e)) =
      [applyUpdate ⟨some (_hash_password newpw s.saltCtr), none, some none⟩
        (applyUpdate ⟨none, none, some (some (_generate_uuid s.uuidCtr))⟩ u)] := by
    refine filter_map_updOne_single hnd1 hu1mem rfl ?_ ?_
    · exact hqu
    · exact email_false_lift _ (email_false_of_filter_single H1)
  have hnil2 : ((s.db.users.map (updOne u.id
      ⟨none, none, some (some (_generate_uuid s.uuidCtr))⟩)).map
        (updOne u.id
          ⟨some (_hash_password newpw s.saltCtr), none, some none⟩)).filter
        (matchLookup (.resetToken (_generate_uuid s.uuidCtr))) = [] := by
    rw [List.filter_eq_nil_iff]
    intro v hv
    rcases mem_map_updOne_cases hv with ⟨w, hw1, hwid, rfl⟩ | ⟨hv1, hne⟩
    · simp [matchLookup, applyUpdate]
    · rcases mem_map_updOne_cases hv1 with ⟨w0, hw0, hwid0, rfl⟩ | ⟨hv0, _⟩
      · exact absurd hwid0 hne
      · exact fun hcon => H3 _ hv0 (eq_of_beq hcon)
  have hfind2 : find_user_by
      (⟨s.db.users.map (updOne u.id
        ⟨none, none, some (some (_generate_uuid s.uuidCtr))⟩),
        s.db.nextId⟩ : DB)
      (.resetToken (_generate_uuid s.uuidCtr)) =
      some (applyUpdate
        ⟨none, none, some (some (_generate_uuid s.uuidCtr))⟩ u) :=
    find_user_by_of_filter_single hret1
  have hfindE2 : find_user_by
      (⟨(s.db.users.map (updOne u.id
          ⟨none, none, some (some (_generate_uuid s.uuidCtr))⟩)).map
          (updOne u.id
            ⟨some (_hash_password newpw s.saltCtr), none, some none⟩),
        s.db.nextId⟩ : DB) (.email e) =
      some (applyUpdate
        ⟨some (_hash_password newpw s.saltCtr), none, some none⟩
        (applyUpdate ⟨none, none, some (some (_generate_uuid s.uuidCtr))⟩ u)) :=
    find_user_by_of_filter_single hfilterE2
  have hfindnil2 : find_user_by
      (⟨(s.db.users.map (updOne u.id
          ⟨none, none, some (some (_generate_uuid s.uuidCtr))⟩)).map
          (updOne u.id
            ⟨some (_hash_password newpw s.saltCtr), none, some none⟩),
        s.db.nextId⟩ : DB)
      (.resetToken (_generate_uuid s.uuidCtr)) = none :=
    find_user_by_of_filter_nil hnil2
  refine ⟨⟨⟨s.db.users.map (updOne u.id
      ⟨none, none, some (some (_generate_uuid s.uuidCtr))⟩), s.db.nextId⟩,
      s.uuidCtr + 1, s.saltCtr⟩,
    ⟨⟨(s.db.users.map (updOne u.id
        ⟨none, none, some (some (_generate_uuid s.uuidCtr))⟩)).map
        (updOne u.id
          ⟨some (_hash_password newpw s.saltCtr), none, some none⟩),
      s.db.nextId⟩, s.uuidCtr + 1, s.saltCtr + 1⟩,
    ?_, ?_, ?_, ?_, ?_⟩
  · exact get_reset_token_ok_eq hfind1 hany1
  · exact @update_password_ok_eq _ _ _
      (applyUpdate ⟨none, none, some (some (_generate_uuid s.uuidCtr))⟩ u)
      hfind2 hany2
  · exact hu2mem
  · rw [valid_login_eq_of_find hfindE2]
    exact checkpw_hashpw newpw s.saltCtr
  · exact update_password_err_eq hfindnil2

/-- Witness for C2 at a concrete single-user state. -/
theorem password_reset_flow_witness :
    ∃ s1 s2,
      Auth.get_reset_password_token exState "a@x.com" =
        Except.ok (_generate_uuid 5, s1) ∧
      Auth.update_password s1 (_generate_uuid 5) [1, 2] =
        Except.ok ((), s2) ∧
      (⟨1, "a@x.com", _hash_password [1, 2] 3, none, none⟩ : User) ∈
        s2.db.users ∧
      Auth.valid_login s2 "a@x.com" [1, 2] = true ∧
      Auth.update_password s2 (_generate_uuid 5) [9] =
        Except.error AuthErr.invalidToken :=
  password_reset_flow exState "a@x.com" exUser [1, 2] [9]
    (by decide) (by decide) (by decide)

/-- Claim C3: for an existing user (unique row for the email, distinct
ids, and the freshly drawn token not already stored), `create_session`
returns a token `T`; `get_user_from_session_id T` returns that same user
(now carrying `T` as its `session_id`); and after
`destroy_session user.id`, `get_user_from_session_id T` returns the
no-user sentinel — the session is cleared. -/
theorem session_lifecycle (s : AuthState) (e : String) (u : User)
    (H1 : s.db.users.filter (matchLookup (.email e)) = [u])
    (H2 : (s.db.users.map User.id).Nodup)
    (H3 : ∀ v ∈ s.db.users, v.session_id ≠ some (_generate_uuid s.uuidCtr)) :
    ∃ s1 s2,
      Auth.create_session s e =
        Except.ok (some (_generate_uuid s.uuidCtr), s1) ∧
      (Auth.get_user_from_session_id s1 (some (_generate_uuid s.uuidCtr))).1 =
        some ⟨u.id, u.email, u.hashed_password,
          some (_generate_uuid s.uuidCtr), u.reset_token⟩ ∧
      Auth.destroy_session s1 u.id = Except.ok ((), s2) ∧
      (Auth.get_user_from_session_id s2 (some (_generate_uuid s.uuidCtr))).1 =
        none := by
  obtain ⟨hu, hqu⟩ := mem_of_filter_eq_single H1
  have hfind1 : find_user_by s.db (.email e) = some u :=
    find_user_by_of_filter_single H1
  have hany1 : s.db.users.any (fun v => v.id == u.id) = true :=
    any_id_of_mem hu rfl
  have hsess1 : (s.db.users.map (updOne u.id
      ⟨none, some (some (_generate_uuid s.uuidCtr)), none⟩)).filter
        (matchLookup (.sessionId (_generate_uuid s.uuidCtr))) =
      [applyUpdate ⟨none, some (some (_generate_uuid s.uuidCtr)), none⟩ u] := by
    refine filter_map_updOne_single H2 hu rfl ?_ ?_
    · simp [matchLookup, applyUpdate]
    · intro v hv _
      simp only [matchLookup]
      exact beq_false_of_ne (H3 v hv)
  have hu1mem : applyUpdate
      ⟨none, some (some (_generate_uuid s.uuidCtr)), none⟩ u ∈
      s.db.users.map (updOne u.id
        ⟨none, some (some (_generate_uuid s.uuidCtr)), none⟩) :=
    mem_map_updOne_self _ hu rfl
  have hany2 : (s.db.users.map (updOne u.id
      ⟨none, some (some (_generate_uuid s.uuidCtr)), none⟩)).any
        (fun v => v.id == u.id) = true :=
    any_id_of_mem hu1mem rfl
  have hfindS1 : find_user_by
      (⟨s.db.users.map (updOne u.id
        ⟨none, some (some (_generate_uuid s.uuidCtr)), none⟩),
        s.db.nextId⟩ : DB) (.sessionId (_generate_uuid s.uuidCtr)) =
      some (applyUpdate
        ⟨none, some (some (_generate_uuid s.uuidCtr)), none⟩ u) :=
    find_user_by_of_filter_single hsess1
  have hnil2 : ((s.db.users.map (updOne u.id
      ⟨none, some (some (_generate_uuid s.uuidCtr)), none⟩)).map
        (updOne u.id ⟨none, some none, none⟩)).filter
        (matchLookup (.sessionId (_generate_uuid s.uuidCtr))) = [] := by
    rw [List.filter_eq_nil_iff]
    intro v hv
    rcases mem_map_updOne_cases hv with ⟨w, hw1, hwid, rfl⟩ | ⟨hv1, hne⟩
    · simp [matchLookup, applyUpdate]
    · rcases mem_map_updOne_cases hv1 with ⟨w0, hw0, hwid0, rfl⟩ | ⟨hv0, _⟩
      · exact absurd hwid0 hne
      · exact fun hcon => H3 _ hv0 (eq_of_beq hcon)
  have hfindnil : find_user_by
      (⟨(s.db.users.map (updOne u.id
        ⟨none, some (some (_generate_uuid s.uuidCtr)), none⟩)).map
        (updOne u.id ⟨none, some none, none⟩),
        s.db.nextId⟩ : DB) (.sessionId (_generate_uuid s.uuidCtr)) = none :=
    find_user_by_of_filter_nil hnil2
  refine ⟨⟨⟨s.db.users.map (updOne u.id
      ⟨none, some (some (_generate_uuid s.uuidCtr)), none⟩), s.db.nextId⟩,
      s.uuidCtr + 1, s.saltCtr⟩,
    ⟨⟨(s.db.users.map (updOne u.id
        ⟨none, some (some (_generate_uuid s.uuidCtr)), none⟩)).map
        (updOne u.id ⟨none, some none, none⟩), s.db.nextId⟩,
      s.uuidCtr + 1, s.saltCtr⟩, ?_, ?_, ?_, ?_⟩
  · exact create_session_ok_eq hfind1 hany1
  · rw [get_user_from_session_eq, hfindS1]
    rfl
  · exact destroy_session_ok_eq hany2
  · rw [get_user_from_session_eq, hfindnil]

/-- Witness for C3 at a concrete single-user state. -/
theorem session_lifecycle_witness :
    ∃ s1 s2,
      Auth.create_session exState "a@x.com" =
        Except.ok (some (_generate_uuid 5), s1) ∧
      (Auth.get_user_from_session_id s1 (some (_generate_uuid 5))).1 =
        some ⟨1, "a@x.com", bcrypt.hashpw [112, 119] 0,
          some (_generate_uuid 5), none⟩ ∧
      Auth.destroy_session s1 1 = Except.ok ((), s2) ∧
      (Auth.get_user_from_session_id s2 (some (_generate_uuid 5))).1 = none :=
  session_lifecycle exState "a@x.com" exUser (by decide) (by decide)
    (by decide)
